import Mathlib

/-!
Shallow embedding of the Binance L2 order-book logger
(`main.py`, class `OrderBookDataCollector`) and proofs about its
buffering, flushing, rollover and reconnection behaviour.

Modelling conventions:
* Wall-clock time is an abstract `Nat`; the map from instants to UTC
  calendar-date strings is an arbitrary parameter `dateOf : Nat → String`
  (`get_current_date` reads the clock through it).  Time is constant
  during the processing of a single update.
* JSON values decoded by `json.loads` are modelled by `JVal`
  (strings, numbers, arrays, null — the constructors the collector's
  code paths distinguish).
* The filesystem is an association list from path strings to file
  contents; a file records how many header lines it carries and the
  data rows appended so far.  `pandas.to_csv(..., mode=a)` appends
  the rows atomically and writes one header line exactly when the file
  did not exist before the call.
* A write that fails with an I/O error is modelled by the oracle
  `ok : Bool` given to `flush_buffer`: when `ok = false` the append
  raises, leaving the file and the collector state unchanged
  (the `err` flag of the result records the raised exception).
-/

set_option autoImplicit false

namespace BinanceLogger

/-- Python values produced by `json.loads` that the collector inspects:
strings, integers, arrays and `None`. -/
inductive JVal where
  | jstr (s : String)
  | jnum (n : Int)
  | jarr (xs : List JVal)
  | jnull

/-- Decidable equality for `JVal`, by structural recursion (the
nested `List` blocks the automatic derivation). -/
def JVal.decEq : (a b : JVal) → Decidable (a = b)
  | .jstr s, .jstr t =>
      if h : s = t then isTrue (by rw [h])
      else isFalse (fun hc => h (by injection hc))
  | .jstr _, .jnum _ => isFalse (fun hc => JVal.noConfusion hc)
  | .jstr _, .jarr _ => isFalse (fun hc => JVal.noConfusion hc)
  | .jstr _, .jnull => isFalse (fun hc => JVal.noConfusion hc)
  | .jnum _, .jstr _ => isFalse (fun hc => JVal.noConfusion hc)
  | .jnum m, .jnum n =>
      if h : m = n then isTrue (by rw [h])
      else isFalse (fun hc => h (by injection hc))
  | .jnum _, .jarr _ => isFalse (fun hc => JVal.noConfusion hc)
  | .jnum _, .jnull => isFalse (fun hc => JVal.noConfusion hc)
  | .jarr _, .jstr _ => isFalse (fun hc => JVal.noConfusion hc)
  | .jarr _, .jnum _ => isFalse (fun hc => JVal.noConfusion hc)
  | .jarr [], .jarr [] => isTrue rfl
  | .jarr [], .jarr (_ :: _) =>
      isFalse (fun hc => by injection hc with h2; exact List.noConfusion h2)
  | .jarr (_ :: _), .jarr [] =>
      isFalse (fun hc => by injection hc with h2; exact List.noConfusion h2)
  | .jarr (x :: xs), .jarr (y :: ys) =>
      match JVal.decEq x y with
      | isFalse h =>
          isFalse (fun hc => by
            injection hc with h2
            injection h2 with h3 h4
            exact h h3)
      | isTrue h1 =>
          match JVal.decEq (.jarr xs) (.jarr ys) with
          | isTrue h2 =>
              isTrue (by
                have h3 : xs = ys := by injection h2
                rw [h1, h3])
          | isFalse h2 =>
              isFalse (fun hc => by
                injection hc with ha
                injection ha with hb hcns
                exact h2 (by rw [hcns]))
  | .jarr _, .jnull => isFalse (fun hc => JVal.noConfusion hc)
  | .jnull, .jstr _ => isFalse (fun hc => JVal.noConfusion hc)
  | .jnull, .jnum _ => isFalse (fun hc => JVal.noConfusion hc)
  | .jnull, .jarr _ => isFalse (fun hc => JVal.noConfusion hc)
  | .jnull, .jnull => isTrue rfl

instance : DecidableEq JVal := JVal.decEq

/-- One buffered order-book row, as built by `buffer_snapshot`:
`{timestamp, price, quantity, side, level, update_id}`.
`timestamp`/`update_id` come from `data.get` and may be `None`. -/
structure Row where
  timestamp : Option JVal
  price : JVal
  quantity : JVal
  side : String
  level : Nat
  update_id : Option JVal
  deriving DecidableEq

/-- The decoded wire message, keeping the keys `buffer_snapshot` reads:
`E`, `u`, `b`, `a`; a field is `none` when the key is absent. -/
structure RawData where
  E : Option JVal
  u : Option JVal
  b : Option JVal
  a : Option JVal
  deriving DecidableEq

/-- Python tuple unpacking `(price, qty) = e` of one level entry:
succeeds exactly on two-element sequences (a two-element array, or a
two-character string, whose elements are its characters). -/
def unpack2 : JVal → Option (JVal × JVal)
  | .jarr [p, q] => some (p, q)
  | .jarr _ => none
  | .jstr s =>
      match s.data with
      | [c1, c2] => some (.jstr (String.mk [c1]), .jstr (String.mk [c2]))
      | _ => none
  | _ => none

/-- Python slicing `v[:10]`: defined on arrays and strings (a string
slices to the list of its characters as one-character strings), a
`TypeError` (`none`) otherwise, e.g. on `None`. -/
def slice10 : JVal → Option (List JVal)
  | .jarr xs => some (xs.take 10)
  | .jstr s => some ((s.data.take 10).map (fun c => JVal.jstr (String.mk [c])))
  | _ => none

/-- The loop body `for i, (price, qty) in enumerate(entries, i0)` of
`buffer_snapshot` over one side: builds a row per entry until an entry
fails to unpack; returns the rows appended so far and whether the loop
raised. -/
def processSide (ts uid : Option JVal) (side : String) :
    List JVal → Nat → List Row × Bool
  | [], _ => ([], false)
  | e :: es, i =>
      match unpack2 e with
      | none => ([], true)
      | some (p, q) =>
          let rest := processSide ts uid side es (i + 1)
          (⟨ts, p, q, side, i, uid⟩ :: rest.1, rest.2)

/-- `OrderBookDataCollector.buffer_snapshot` (main.py lines 48-76):
returns the rows appended to `self.buffer` (in order) and whether the
method raised.  Bids are processed before asks; a raised exception
leaves the rows appended before it in the buffer. -/
def buffer_snapshot (d : RawData) : List Row × Bool :=
  let ts := d.E
  let uid := d.u
  let bidsV := d.b.getD (.jarr [])
  let asksV := d.a.getD (.jarr [])
  match slice10 bidsV with
  | none => ([], true)
  | some bids =>
      let bres := processSide ts uid "bid" bids 1
      if bres.2 then (bres.1, true)
      else
        match slice10 asksV with
        | none => (bres.1, true)
        | some asks =>
            let ares := processSide ts uid "ask" asks 1
            (bres.1 ++ ares.1, ares.2)

/-- A persisted file: number of header lines written and the data rows
appended so far, in append order. -/
structure File where
  headers : Nat
  rows : List Row
  deriving DecidableEq

/-- The world outside the collector: the filesystem (path ↦ file) and
the set of existing directories. -/
structure World where
  fs : List (String × File)
  dirs : List String
  deriving DecidableEq

/-- `os.path.exists` / lookup of a path in the filesystem. -/
def fsFind (fs : List (String × File)) (path : String) : Option File :=
  match fs with
  | [] => none
  | (p, f) :: rest => if p = path then some f else fsFind rest path

/-- Effect of `df.to_csv(filepath, mode=a, header=write_header, ...)`
where `write_header = not os.path.exists(filepath)`: append the rows to
the file at `path`, creating it with one header line when absent. -/
def fsAppend (fs : List (String × File)) (path : String) (rows : List Row) :
    List (String × File) :=
  match fs with
  | [] => [(path, ⟨1, rows⟩)]
  | (p, f) :: rest =>
      if p = path then (p, ⟨f.headers, f.rows ++ rows⟩) :: rest
      else (p, f) :: fsAppend rest path rows

/-- `os.makedirs(dir_path, exist_ok=True)`. -/
def addDir (dirs : List String) (d : String) : List String :=
  if d ∈ dirs then dirs else d :: dirs

/-- `OrderBookDataCollector`'s mutable attributes (main.py lines 19-27). -/
structure CollectorState where
  symbol : String
  order_book : Option RawData
  last_update : Option Nat
  buffer : List Row
  last_flush : Nat
  current_date : String
  last_rollover : Nat
  deriving DecidableEq

/-- `os.path.join(data, self.symbol)`. -/
def dirPath (symbol : String) : String := "data/" ++ symbol

/-- `os.path.join(dir_path, f{date_str}.csv.gz)` under `data/symbol`. -/
def filePath (symbol date : String) : String :=
  "data/" ++ symbol ++ "/" ++ date ++ ".csv.gz"

/-- `OrderBookDataCollector.get_current_date` (main.py lines 30-34):
the UTC date at the moment of the call. -/
def get_current_date (dateOf : Nat → String) (now : Nat) : String := dateOf now

/-- `OrderBookDataCollector.get_filepath` (main.py lines 37-45): derives
the path from the wall-clock date at the moment of the call and creates
the symbol directory. -/
def get_filepath (dateOf : Nat → String) (now : Nat) (symbol : String)
    (w : World) : String × World :=
  let date_str := get_current_date dateOf now
  (filePath symbol date_str, { w with dirs := addDir w.dirs (dirPath symbol) })

/-- Result of running a collector method: the new collector state, the
new world, the log of successful appends (path, row count) in order,
and whether an exception was raised. -/
structure StepResult where
  st : CollectorState
  w : World
  writes : List (String × Nat)
  err : Bool
  deriving DecidableEq

/-- `OrderBookDataCollector.flush_buffer` (main.py lines 79-93): no-op
on an empty buffer; otherwise resolves the path (creating the
directory), appends all buffered rows, and only then clears the buffer
and resets `last_flush`.  `ok = false` makes the append raise, leaving
buffer, `last_flush` and the file contents unchanged. -/
def flush_buffer (dateOf : Nat → String) (now : Nat) (ok : Bool)
    (st : CollectorState) (w : World) : StepResult :=
  if st.buffer = [] then ⟨st, w, [], false⟩
  else
    let pw := get_filepath dateOf now st.symbol w
    if ok then
      ⟨{ st with buffer := [], last_flush := now },
       { pw.2 with fs := fsAppend pw.2.fs pw.1 st.buffer },
       [(pw.1, st.buffer.length)], false⟩
    else
      ⟨st, pw.2, [], true⟩

/-- `OrderBookDataCollector.rollover_file` (main.py lines 96-103):
flush, then adopt the current wall-clock date and reset
`last_rollover`; an exception from the flush propagates before the
date is updated. -/
def rollover_file (dateOf : Nat → String) (now : Nat) (ok : Bool)
    (st : CollectorState) (w : World) : StepResult :=
  let r := flush_buffer dateOf now ok st w
  if r.err then r
  else
    let st2 := { r.st with current_date := get_current_date dateOf now, last_rollover := now }
    ⟨st2, r.w, r.writes, false⟩

/-- The body of the inner receive loop after a successful decode
(main.py lines 119-128): publish the snapshot, buffer it, roll over if
the wall-clock date moved, then flush if more than 60 time units passed
since `last_flush`.  An exception from any stage aborts the remaining
stages. -/
def process_update (dateOf : Nat → String) (now : Nat) (ok : Bool)
    (d : RawData) (st : CollectorState) (w : World) : StepResult :=
  let st0 := { st with order_book := some d, last_update := some now }
  let ing := buffer_snapshot d
  let st1 := { st0 with buffer := st0.buffer ++ ing.1 }
  if ing.2 then ⟨st1, w, [], true⟩
  else
    let new_date := get_current_date dateOf now
    let r1 :=
      if new_date ≠ st1.current_date then rollover_file dateOf now ok st1 w
      else ⟨st1, w, [], false⟩
    if r1.err then r1
    else if now - r1.st.last_flush > 60 then
      let r2 := flush_buffer dateOf now ok r1.st r1.w
      ⟨r2.st, r2.w, r1.writes ++ r2.writes, r2.err⟩
    else r1

/-- One delivery to `websocket.recv()` inside the inner loop: a message
that decodes, a message on which `json.loads` raises, a connection
error raised by the receive, or a delivered cancellation. -/
inductive Msg where
  | good (d : RawData)
  | badPayload
  | connLost
  | cancelled
  deriving DecidableEq

/-- How one inner-loop iteration ends: continue to the next receive,
`break` out of the loop via the generic `except Exception` handler
(which logs and abandons the connection), or let the exception
propagate out of the loop (only `CancelledError` is re-raised). -/
inductive InnerOutcome where
  | keepReceiving
  | breakOut
  | propagate
  deriving DecidableEq

/-- Result of one inner-loop iteration. -/
structure InnerResult where
  st : CollectorState
  w : World
  writes : List (String × Nat)
  outcome : InnerOutcome
  deriving DecidableEq

/-- One iteration of the inner `while self.running` loop
(main.py lines 115-134).  `json.loads` failures, connection errors
raised by `recv`, and any exception raised while processing the update
(including an I/O error from a flush) are all caught by
`except Exception` and turn into `break`; only `CancelledError`
propagates. -/
def inner_iteration (dateOf : Nat → String) (now : Nat) (ok : Bool)
    (m : Msg) (st : CollectorState) (w : World) : InnerResult :=
  match m with
  | .cancelled => ⟨st, w, [], .propagate⟩
  | .badPayload => ⟨st, w, [], .breakOut⟩
  | .connLost => ⟨st, w, [], .breakOut⟩
  | .good d =>
      let r := process_update dateOf now ok d st w
      if r.err then ⟨r.st, r.w, r.writes, .breakOut⟩
      else ⟨r.st, r.w, r.writes, .keepReceiving⟩

/-- Run the inner loop over a script of timed deliveries
(`now`, write oracle, message), stopping at the first iteration that
does not continue. -/
def run_inner (dateOf : Nat → String) :
    List (Nat × Bool × Msg) → CollectorState → World → InnerResult
  | [], st, w => ⟨st, w, [], .keepReceiving⟩
  | (now, ok, m) :: rest, st, w =>
      let r := inner_iteration dateOf now ok m st w
      match r.outcome with
      | .keepReceiving =>
          let r2 := run_inner dateOf rest r.st r.w
          ⟨r2.st, r2.w, r.writes ++ r2.writes, r2.outcome⟩
      | o => ⟨r.st, r.w, r.writes, o⟩

/-- One pass of the outer `while self.running` loop
(main.py lines 112-143): either the `websockets.connect` attempt
raises (a recognised connection error, an unexpected exception, or a
cancellation), or a session runs the inner loop. -/
inductive OuterItem where
  | connectFail
  | connectFailUnexpected
  | connectCancelled
  | session (msgs : List (Nat × Bool × Msg))

/-- What the outer loop does next after one pass: reconnect
immediately (the inner loop broke out and the `async with` block
exited normally), sleep the 5-unit backoff and then reconnect, let the
cancellation propagate out of `receive_data`, or keep receiving on the
current connection (the session script was exhausted). -/
inductive OuterReaction where
  | reconnectNow
  | sleepThenReconnect
  | propagateCancel
  | stillReceiving
  deriving DecidableEq

/-- One pass of the outer loop (main.py lines 112-143).  Both `except`
arms around the connect attempt sleep 5 time units before the next
attempt; a session that ends by `break` reconnects with no sleep. -/
def outer_iteration (dateOf : Nat → String) (item : OuterItem)
    (st : CollectorState) (w : World) :
    CollectorState × World × OuterReaction :=
  match item with
  | .connectFail => (st, w, .sleepThenReconnect)
  | .connectFailUnexpected => (st, w, .sleepThenReconnect)
  | .connectCancelled => (st, w, .propagateCancel)
  | .session msgs =>
      let r := run_inner dateOf msgs st w
      match r.outcome with
      | .keepReceiving => (r.st, r.w, .stillReceiving)
      | .breakOut => (r.st, r.w, .reconnectNow)
      | .propagate => (r.st, r.w, .propagateCancel)

/-- Encoding of one well-formed (price, quantity) level in wire form. -/
def encodePair (pq : JVal × JVal) : JVal := .jarr [pq.1, pq.2]

/-- A well-formed depth update: `E`/`u` values plus bid and ask level
lists, encoded as the decoded JSON the collector receives. -/
def encodeUpdate (ts uid : Option JVal) (bl al : List (JVal × JVal)) : RawData :=
  ⟨ts, uid, some (.jarr (bl.map encodePair)), some (.jarr (al.map encodePair))⟩

/-- Rows built from a list of levels with 1-based positions starting
at `i` (the reference shape for `processSide` on well-formed input). -/
def rowsFrom (ts uid : Option JVal) (side : String) :
    List (JVal × JVal) → Nat → List Row
  | [], _ => []
  | pq :: rest, i => ⟨ts, pq.1, pq.2, side, i, uid⟩ :: rowsFrom ts uid side rest (i + 1)

/-- The rows ingest produces for one side of a well-formed update:
the first ten levels, numbered from 1. -/
def sideRows (ts uid : Option JVal) (side : String)
    (levels : List (JVal × JVal)) : List Row :=
  rowsFrom ts uid side (levels.take 10) 1

/-- A well-formed update, bundled. -/
structure WfUpdate where
  ts : Option JVal
  uid : Option JVal
  bids : List (JVal × JVal)
  asks : List (JVal × JVal)

/-- The rows one well-formed update contributes to the buffer. -/
def updateRows (u : WfUpdate) : List Row :=
  (buffer_snapshot (encodeUpdate u.ts u.uid u.bids u.asks)).1

/-- Feeding a list of well-formed updates through `buffer_snapshot`,
appending each update's rows to the buffer in arrival order (the
inner receive loop does this once per message). -/
def ingestAll (us : List WfUpdate) (buf : List Row) : List Row :=
  us.foldl (fun b u => b ++ updateRows u) buf

/-- Number of filesystem entries whose path equals `path`. -/
def countPath : List (String × File) → String → Nat
  | [], _ => 0
  | (p, _) :: rest, path => (if p = path then 1 else 0) + countPath rest path

/-- Iterated append of row batches to one path. -/
def fsAppendAll (fs : List (String × File)) (path : String) :
    List (List Row) → List (String × File)
  | [] => fs
  | rows :: rest => fsAppendAll (fsAppend fs path rows) path rest

/-- The test-scaffolding drive of `flush_buffer`: repeatedly set the
buffer to a batch of rows and flush it at a given instant (what the
repository's `test_multiple_flushes` does). -/
def flushBatches (dateOf : Nat → String) (batches : List (Nat × List Row))
    (st : CollectorState) (w : World) : CollectorState × World :=
  batches.foldl
    (fun p nb =>
      let r := flush_buffer dateOf nb.1 true { p.1 with buffer := nb.2 } p.2
      (r.st, r.w))
    (st, w)

/-- Whether one level entry unpacks as a (price, quantity) pair. -/
def entryOk (v : JVal) : Bool := (unpack2 v).isSome

/-- Whether a side's value survives `buffer_snapshot` without raising:
it must slice, and every sliced entry must unpack. -/
def sideOk (v : JVal) : Bool :=
  match slice10 v with
  | none => false
  | some es => es.all entryOk

/-- Rows built from raw entries (used to describe the partial rows a
failing ingest leaves behind); entries that fail to unpack contribute
a placeholder, but the lemmas only apply it to unpackable prefixes. -/
def entryRows (ts uid : Option JVal) (side : String) :
    List JVal → Nat → List Row
  | [], _ => []
  | e :: es, i =>
      match unpack2 e with
      | some pq => ⟨ts, pq.1, pq.2, side, i, uid⟩ :: entryRows ts uid side es (i + 1)
      | none => []

/-- A sample buffered row used by the concrete scenarios below. -/
def exRow : Row := ⟨none, .jstr "100.5", .jstr "2", "bid", 1, none⟩

/-- A clock whose UTC date is 2024-01-02 at every instant. -/
def exDateOf : Nat → String := fun _ => "2024-01-02"

/-- An empty filesystem and directory set. -/
def exW : World := ⟨[], []⟩

/-- A collector holding one buffered row, key 2024-01-01, flushed at 0. -/
def exSt : CollectorState := ⟨"BTCUSDT", none, none, [exRow], 1000, "2024-01-01", 0⟩

/-- A collector holding one buffered row, key 2024-01-02, flushed at 0. -/
def exStSame : CollectorState := ⟨"BTCUSDT", none, none, [exRow], 0, "2024-01-02", 0⟩

/-- A well-formed update carrying no levels at all. -/
def exUpd : RawData := encodeUpdate none none [] []


/-- A raw update whose second bid entry cannot unpack as a pair. -/
def c10Data : RawData :=
  ⟨some (.jnum 1), some (.jnum 2),
   some (.jarr [.jarr [.jstr "1.0", .jstr "2.0"], .jnum 5]),
   some (.jarr [])⟩

theorem unpack2_encodePair (pq : JVal × JVal) :
    unpack2 (encodePair pq) = some pq := by
  cases pq with
  | mk p q => rfl

theorem processSide_encode (ts uid : Option JVal) (side : String)
    (l : List (JVal × JVal)) (i : Nat) :
    processSide ts uid side (l.map encodePair) i = (rowsFrom ts uid side l i, false) := by
  induction l generalizing i with
  | nil => rfl
  | cons pq rest ih =>
      cases pq with
      | mk p q =>
          simp only [List.map_cons, processSide, unpack2_encodePair, rowsFrom, ih]

theorem buffer_snapshot_encode (ts uid : Option JVal)
    (bl al : List (JVal × JVal)) :
    buffer_snapshot (encodeUpdate ts uid bl al) =
      (sideRows ts uid "bid" bl ++ sideRows ts uid "ask" al, false) := by
  simp only [buffer_snapshot, encodeUpdate, Option.getD, slice10, sideRows,
    ← List.map_take, processSide_encode]
  simp

theorem rowsFrom_length (ts uid : Option JVal) (side : String)
    (l : List (JVal × JVal)) (i : Nat) :
    (rowsFrom ts uid side l i).length = l.length := by
  induction l generalizing i with
  | nil => rfl
  | cons pq rest ih => simp [rowsFrom, ih]

theorem rowsFrom_map_price_quantity (ts uid : Option JVal) (side : String)
    (l : List (JVal × JVal)) (i : Nat) :
    (rowsFrom ts uid side l i).map (fun r => (r.price, r.quantity)) = l := by
  induction l generalizing i with
  | nil => rfl
  | cons pq rest ih => simp [rowsFrom, ih]

theorem rowsFrom_map_level (ts uid : Option JVal) (side : String)
    (l : List (JVal × JVal)) (i : Nat) :
    (rowsFrom ts uid side l i).map Row.level = List.range' i l.length := by
  induction l generalizing i with
  | nil => rfl
  | cons pq rest ih => simp [rowsFrom, ih, List.range'_succ]

theorem rowsFrom_mem (ts uid : Option JVal) (side : String)
    (l : List (JVal × JVal)) (i : Nat) (r : Row)
    (hr : r ∈ rowsFrom ts uid side l i) :
    r.timestamp = ts ∧ r.update_id = uid ∧ r.side = side := by
  induction l generalizing i with
  | nil => cases hr
  | cons pq rest ih =>
      rcases List.mem_cons.mp hr with h | h
      · subst h; exact ⟨rfl, rfl, rfl⟩
      · exact ih _ h

theorem ingestAll_append (us : List WfUpdate) (buf : List Row) :
    ingestAll us buf = buf ++ (us.map updateRows).flatten := by
  induction us generalizing buf with
  | nil => simp [ingestAll]
  | cons u rest ih =>
      simp only [ingestAll, List.foldl_cons, List.map_cons, List.flatten_cons] at *
      rw [ih, List.append_assoc]


theorem flush_buffer_empty (dateOf : Nat → String) (now : Nat) (ok : Bool)
    (st : CollectorState) (w : World) (h : st.buffer = []) :
    flush_buffer dateOf now ok st w = ⟨st, w, [], false⟩ := by
  simp [flush_buffer, h]

theorem flush_buffer_ok (dateOf : Nat → String) (now : Nat)
    (st : CollectorState) (w : World) (h : st.buffer ≠ []) :
    flush_buffer dateOf now true st w =
      ⟨{ st with buffer := [], last_flush := now },
       ⟨fsAppend w.fs (filePath st.symbol (dateOf now)) st.buffer,
        addDir w.dirs (dirPath st.symbol)⟩,
       [(filePath st.symbol (dateOf now), st.buffer.length)], false⟩ := by
  simp [flush_buffer, h, get_filepath, get_current_date]

theorem flush_buffer_fail (dateOf : Nat → String) (now : Nat)
    (st : CollectorState) (w : World) (h : st.buffer ≠ []) :
    flush_buffer dateOf now false st w =
      ⟨st, { w with dirs := addDir w.dirs (dirPath st.symbol) }, [], true⟩ := by
  simp [flush_buffer, h, get_filepath]

theorem rollover_file_empty (dateOf : Nat → String) (now : Nat) (ok : Bool)
    (st : CollectorState) (w : World) (h : st.buffer = []) :
    rollover_file dateOf now ok st w =
      ⟨{ st with current_date := dateOf now, last_rollover := now }, w, [],
       false⟩ := by
  simp [rollover_file, flush_buffer_empty dateOf now ok st w h, get_current_date]

theorem rollover_file_ok (dateOf : Nat → String) (now : Nat)
    (st : CollectorState) (w : World) (h : st.buffer ≠ []) :
    rollover_file dateOf now true st w =
      ⟨{ st with
          buffer := []
          last_flush := now
          current_date := dateOf now
          last_rollover := now },
       ⟨fsAppend w.fs (filePath st.symbol (dateOf now)) st.buffer,
        addDir w.dirs (dirPath st.symbol)⟩,
       [(filePath st.symbol (dateOf now), st.buffer.length)], false⟩ := by
  simp [rollover_file, flush_buffer_ok dateOf now st w h, get_current_date]

theorem rollover_file_fail (dateOf : Nat → String) (now : Nat)
    (st : CollectorState) (w : World) (h : st.buffer ≠ []) :
    rollover_file dateOf now false st w =
      ⟨st, { w with dirs := addDir w.dirs (dirPath st.symbol) }, [], true⟩ := by
  simp [rollover_file, flush_buffer_fail dateOf now st w h]

theorem fsFind_fsAppend_self (fs : List (String × File)) (path : String)
    (rows : List Row) :
    fsFind (fsAppend fs path rows) path =
      some ((fsFind fs path).elim ⟨1, rows⟩
        (fun f => ⟨f.headers, f.rows ++ rows⟩)) := by
  induction fs with
  | nil => simp [fsAppend, fsFind]
  | cons e rest ih =>
      obtain ⟨q, f⟩ := e
      by_cases hq : q = path
      · subst hq
        simp [fsAppend, fsFind]
      · simp [fsAppend, fsFind, hq, ih]

theorem fsFind_fsAppend_new (fs : List (String × File)) (path : String)
    (rows : List Row) (h : fsFind fs path = none) :
    fsFind (fsAppend fs path rows) path = some ⟨1, rows⟩ := by
  rw [fsFind_fsAppend_self, h]
  rfl

theorem fsFind_fsAppend_same (fs : List (String × File)) (path : String)
    (rows : List Row) (f : File) (h : fsFind fs path = some f) :
    fsFind (fsAppend fs path rows) path = some ⟨f.headers, f.rows ++ rows⟩ := by
  rw [fsFind_fsAppend_self, h]
  rfl

theorem fsFind_fsAppend_ne (fs : List (String × File)) (path q : String)
    (rows : List Row) (h : q ≠ path) :
    fsFind (fsAppend fs path rows) q = fsFind fs q := by
  induction fs with
  | nil => simp [fsAppend, fsFind, Ne.symm h]
  | cons e rest ih =>
      obtain ⟨p0, f⟩ := e
      by_cases hp : p0 = path
      · subst hp
        simp [fsAppend, fsFind, Ne.symm h]
      · simp [fsAppend, fsFind, hp, ih]

theorem countPath_eq_zero (fs : List (String × File)) (path : String)
    (h : fsFind fs path = none) : countPath fs path = 0 := by
  induction fs with
  | nil => rfl
  | cons e rest ih =>
      obtain ⟨q, f⟩ := e
      by_cases hq : q = path
      · subst hq; simp [fsFind] at h
      · simp [fsFind, hq] at h
        simp [countPath, hq, ih h]

theorem countPath_fsAppend_none (fs : List (String × File)) (path : String)
    (rows : List Row) (h : fsFind fs path = none) :
    countPath (fsAppend fs path rows) path = countPath fs path + 1 := by
  induction fs with
  | nil => simp [fsAppend, countPath]
  | cons e rest ih =>
      obtain ⟨q, f⟩ := e
      by_cases hq : q = path
      · subst hq; simp [fsFind] at h
      · simp [fsFind, hq] at h
        simp [fsAppend, countPath, hq, ih h, Nat.add_assoc]

theorem countPath_fsAppend_some (fs : List (String × File)) (path : String)
    (rows : List Row) (f : File) (h : fsFind fs path = some f) :
    countPath (fsAppend fs path rows) path = countPath fs path := by
  induction fs with
  | nil => simp [fsFind] at h
  | cons e rest ih =>
      obtain ⟨q, g⟩ := e
      by_cases hq : q = path
      · subst hq; simp [fsAppend, countPath]
      · simp [fsFind, hq] at h
        simp [fsAppend, countPath, hq, ih h]



theorem process_update_ing_err (dateOf : Nat → String) (now : Nat) (ok : Bool)
    (d : RawData) (st : CollectorState) (w : World)
    (hing : (buffer_snapshot d).2 = true) :
    process_update dateOf now ok d st w =
      ⟨⟨st.symbol, some d, some now, st.buffer ++ (buffer_snapshot d).1,
        st.last_flush, st.current_date, st.last_rollover⟩, w, [], true⟩ := by
  simp only [process_update, hing, if_true]

theorem process_update_rollover (dateOf : Nat → String) (now : Nat)
    (d : RawData) (st : CollectorState) (w : World)
    (hing : (buffer_snapshot d).2 = false)
    (hdate : dateOf now ≠ st.current_date)
    (hbuf : st.buffer ++ (buffer_snapshot d).1 ≠ []) :
    process_update dateOf now true d st w =
      ⟨⟨st.symbol, some d, some now, [], now, dateOf now, now⟩,
       ⟨fsAppend w.fs (filePath st.symbol (dateOf now))
          (st.buffer ++ (buffer_snapshot d).1),
        addDir w.dirs (dirPath st.symbol)⟩,
       [(filePath st.symbol (dateOf now),
         (st.buffer ++ (buffer_snapshot d).1).length)],
       false⟩ := by
  simp only [process_update, hing, Bool.false_eq_true, if_false, get_current_date]
  rw [if_pos hdate, rollover_file_ok dateOf now
    ⟨st.symbol, some d, some now, st.buffer ++ (buffer_snapshot d).1,
     st.last_flush, st.current_date, st.last_rollover⟩ w hbuf]
  simp [Nat.sub_self]

theorem process_update_rollover_empty (dateOf : Nat → String) (now : Nat)
    (ok : Bool) (d : RawData) (st : CollectorState) (w : World)
    (hing : (buffer_snapshot d).2 = false)
    (hdate : dateOf now ≠ st.current_date)
    (hbuf : st.buffer ++ (buffer_snapshot d).1 = []) :
    process_update dateOf now ok d st w =
      ⟨⟨st.symbol, some d, some now, [], st.last_flush, dateOf now, now⟩,
       w, [], false⟩ := by
  simp only [process_update, hing, Bool.false_eq_true, if_false, get_current_date]
  rw [if_pos hdate, hbuf]
  rw [rollover_file_empty dateOf now ok
    ⟨st.symbol, some d, some now, [], st.last_flush, st.current_date,
     st.last_rollover⟩ w rfl]
  dsimp only
  simp only [Bool.false_eq_true, if_false]
  by_cases ht : now - st.last_flush > 60
  · rw [if_pos ht]
    rw [flush_buffer_empty dateOf now ok
      ⟨st.symbol, some d, some now, [], st.last_flush, dateOf now, now⟩ w rfl]
    rfl
  · rw [if_neg ht]

theorem process_update_rollover_fail (dateOf : Nat → String) (now : Nat)
    (d : RawData) (st : CollectorState) (w : World)
    (hing : (buffer_snapshot d).2 = false)
    (hdate : dateOf now ≠ st.current_date)
    (hbuf : st.buffer ++ (buffer_snapshot d).1 ≠ []) :
    process_update dateOf now false d st w =
      ⟨⟨st.symbol, some d, some now, st.buffer ++ (buffer_snapshot d).1,
        st.last_flush, st.current_date, st.last_rollover⟩,
       { w with dirs := addDir w.dirs (dirPath st.symbol) }, [], true⟩ := by
  simp only [process_update, hing, Bool.false_eq_true, if_false, get_current_date]
  rw [if_pos hdate, rollover_file_fail dateOf now
    ⟨st.symbol, some d, some now, st.buffer ++ (buffer_snapshot d).1,
     st.last_flush, st.current_date, st.last_rollover⟩ w hbuf]
  dsimp only
  rw [if_pos rfl]

theorem process_update_timed (dateOf : Nat → String) (now : Nat)
    (d : RawData) (st : CollectorState) (w : World)
    (hing : (buffer_snapshot d).2 = false)
    (hdate : dateOf now = st.current_date)
    (ht : now - st.last_flush > 60)
    (hbuf : st.buffer ++ (buffer_snapshot d).1 ≠ []) :
    process_update dateOf now true d st w =
      ⟨⟨st.symbol, some d, some now, [], now, st.current_date, st.last_rollover⟩,
       ⟨fsAppend w.fs (filePath st.symbol (dateOf now))
          (st.buffer ++ (buffer_snapshot d).1),
        addDir w.dirs (dirPath st.symbol)⟩,
       [(filePath st.symbol (dateOf now),
         (st.buffer ++ (buffer_snapshot d).1).length)],
       false⟩ := by
  simp only [process_update, hing, Bool.false_eq_true, if_false, get_current_date]
  have hnd : ¬ (dateOf now ≠ st.current_date) := fun hh => hh hdate
  rw [if_neg hnd]
  dsimp only
  simp only [Bool.false_eq_true, if_false]
  rw [if_pos ht]
  rw [flush_buffer_ok dateOf now
    ⟨st.symbol, some d, some now, st.buffer ++ (buffer_snapshot d).1,
     st.last_flush, st.current_date, st.last_rollover⟩ w hbuf]
  rfl

theorem process_update_timed_fail (dateOf : Nat → String) (now : Nat)
    (d : RawData) (st : CollectorState) (w : World)
    (hing : (buffer_snapshot d).2 = false)
    (hdate : dateOf now = st.current_date)
    (ht : now - st.last_flush > 60)
    (hbuf : st.buffer ++ (buffer_snapshot d).1 ≠ []) :
    process_update dateOf now false d st w =
      ⟨⟨st.symbol, some d, some now, st.buffer ++ (buffer_snapshot d).1,
        st.last_flush, st.current_date, st.last_rollover⟩,
       { w with dirs := addDir w.dirs (dirPath st.symbol) }, [], true⟩ := by
  simp only [process_update, hing, Bool.false_eq_true, if_false, get_current_date]
  have hnd : ¬ (dateOf now ≠ st.current_date) := fun hh => hh hdate
  rw [if_neg hnd]
  dsimp only
  simp only [Bool.false_eq_true, if_false]
  rw [if_pos ht]
  rw [flush_buffer_fail dateOf now
    ⟨st.symbol, some d, some now, st.buffer ++ (buffer_snapshot d).1,
     st.last_flush, st.current_date, st.last_rollover⟩ w hbuf]
  rfl

theorem process_update_timed_empty (dateOf : Nat → String) (now : Nat)
    (ok : Bool) (d : RawData) (st : CollectorState) (w : World)
    (hing : (buffer_snapshot d).2 = false)
    (hdate : dateOf now = st.current_date)
    (ht : now - st.last_flush > 60)
    (hbuf : st.buffer ++ (buffer_snapshot d).1 = []) :
    process_update dateOf now ok d st w =
      ⟨⟨st.symbol, some d, some now, st.buffer ++ (buffer_snapshot d).1,
        st.last_flush, st.current_date, st.last_rollover⟩, w, [], false⟩ := by
  simp only [process_update, hing, Bool.false_eq_true, if_false, get_current_date]
  have hnd : ¬ (dateOf now ≠ st.current_date) := fun hh => hh hdate
  rw [if_neg hnd]
  dsimp only
  simp only [Bool.false_eq_true, if_false]
  rw [if_pos ht]
  rw [flush_buffer_empty dateOf now ok
    ⟨st.symbol, some d, some now, st.buffer ++ (buffer_snapshot d).1,
     st.last_flush, st.current_date, st.last_rollover⟩ w hbuf]
  rfl

theorem process_update_idle (dateOf : Nat → String) (now : Nat)
    (ok : Bool) (d : RawData) (st : CollectorState) (w : World)
    (hing : (buffer_snapshot d).2 = false)
    (hdate : dateOf now = st.current_date)
    (ht : ¬ (now - st.last_flush > 60)) :
    process_update dateOf now ok d st w =
      ⟨⟨st.symbol, some d, some now, st.buffer ++ (buffer_snapshot d).1,
        st.last_flush, st.current_date, st.last_rollover⟩, w, [], false⟩ := by
  simp only [process_update, hing, Bool.false_eq_true, if_false, get_current_date]
  have hnd : ¬ (dateOf now ≠ st.current_date) := fun hh => hh hdate
  rw [if_neg hnd]
  dsimp only
  simp only [Bool.false_eq_true, if_false]
  rw [if_neg ht]

theorem filePath_inj (sym : String) (d1 d2 : String)
    (h : filePath sym d1 = filePath sym d2) : d1 = d2 := by
  have h2 : (filePath sym d1).data = (filePath sym d2).data := by rw [h]
  simp only [filePath, String.data_append] at h2
  have h3 := List.append_cancel_right h2
  have h4 := List.append_cancel_left h3
  exact String.ext h4

/-- Claim C4: a flush is all-or-nothing with respect to controller
state: on a non-empty buffer all buffered rows are written and the
buffer is cleared (with `last_flush` reset to the flush time) only on
a successful write, so a failed write leaves the collector state and
the file contents unchanged; on an empty buffer the flush performs no
I/O, creates no file and no directory, and changes no state. -/
theorem C4_flush_all_or_nothing (dateOf : Nat → String) (now : Nat)
    (st : CollectorState) (w : World) :
    (st.buffer = [] → ∀ ok, flush_buffer dateOf now ok st w = ⟨st, w, [], false⟩)
    ∧ (st.buffer ≠ [] →
        (flush_buffer dateOf now true st w).st.buffer = []
        ∧ (flush_buffer dateOf now true st w).st.last_flush = now
        ∧ (flush_buffer dateOf now true st w).w.fs
            = fsAppend w.fs (filePath st.symbol (dateOf now)) st.buffer
        ∧ (flush_buffer dateOf now true st w).writes
            = [(filePath st.symbol (dateOf now), st.buffer.length)]
        ∧ (flush_buffer dateOf now true st w).err = false)
    ∧ (st.buffer ≠ [] →
        (flush_buffer dateOf now false st w).err = true
        ∧ (flush_buffer dateOf now false st w).st = st
        ∧ (flush_buffer dateOf now false st w).w.fs = w.fs
        ∧ (flush_buffer dateOf now false st w).writes = []) := by
  refine ⟨fun h ok => flush_buffer_empty dateOf now ok st w h,
          fun h => ?_, fun h => ?_⟩
  · rw [flush_buffer_ok dateOf now st w h]
    exact ⟨rfl, rfl, rfl, rfl, rfl⟩
  · rw [flush_buffer_fail dateOf now st w h]
    exact ⟨rfl, rfl, rfl, rfl⟩

/-- Witness for C4 at a concrete non-empty buffer: the failed flush
reports the error and leaves the state untouched. -/
theorem C4_flush_all_or_nothing_witness :
    (flush_buffer exDateOf 100 false exStSame exW).err = true
    ∧ (flush_buffer exDateOf 100 false exStSame exW).st = exStSame :=
  ⟨((C4_flush_all_or_nothing exDateOf 100 exStSame exW).2.2 (by decide)).1,
   ((C4_flush_all_or_nothing exDateOf 100 exStSame exW).2.2 (by decide)).2.1⟩

/-- Claim C5: for a well-formed update whose bid/ask level lists have
lengths k_b and k_a, ingest appends exactly min(k_b,10) + min(k_a,10)
rows without raising; an update with both level keys absent appends
no rows. -/
theorem C5_ingest_count (ts uid : Option JVal) (bl al : List (JVal × JVal)) :
    (buffer_snapshot (encodeUpdate ts uid bl al)).1.length
        = min bl.length 10 + min al.length 10
    ∧ (buffer_snapshot (encodeUpdate ts uid bl al)).2 = false
    ∧ buffer_snapshot ⟨ts, uid, none, none⟩ = ([], false) := by
  rw [buffer_snapshot_encode]
  refine ⟨?_, rfl, rfl⟩
  simp [sideRows, rowsFrom_length, List.length_take, List.length_append,
    Nat.min_comm]

/-- Claim C6: buffer row order equals arrival order of the updates;
within one update all bid rows precede all ask rows, each side keeps
feed order, levels are the 1-based positions within the side's
truncated sequence (restarting at 1 for asks), and timestamp and
update id are identical across all rows of the update. -/
theorem C6_buffer_order :
    (∀ (us : List WfUpdate) (buf : List Row),
        ingestAll us buf = buf ++ (us.map updateRows).flatten)
    ∧ (∀ u : WfUpdate,
        updateRows u
          = sideRows u.ts u.uid "bid" u.bids ++ sideRows u.ts u.uid "ask" u.asks)
    ∧ (∀ (ts uid : Option JVal) (side : String) (levels : List (JVal × JVal)),
        (sideRows ts uid side levels).map (fun r => (r.price, r.quantity))
            = levels.take 10
        ∧ (sideRows ts uid side levels).map Row.level
            = List.range' 1 (min 10 levels.length)
        ∧ ∀ r ∈ sideRows ts uid side levels,
            r.timestamp = ts ∧ r.update_id = uid ∧ r.side = side) := by
  refine ⟨ingestAll_append, ?_, ?_⟩
  · intro u
    rw [updateRows, buffer_snapshot_encode]
  · intro ts uid side levels
    refine ⟨rowsFrom_map_price_quantity ts uid side (levels.take 10) 1, ?_,
            fun r hr => rowsFrom_mem ts uid side (levels.take 10) 1 r hr⟩
    rw [sideRows, rowsFrom_map_level, List.length_take]

/-- Witness for C6 at a concrete one-level update: the produced row is
in the side list and carries the update's timestamp, id and side. -/
theorem C6_buffer_order_witness :
    (⟨some (.jnum 1), .jstr "p", .jstr "q", "bid", 1, some (.jnum 2)⟩ : Row).timestamp
        = some (.jnum 1)
    ∧ (⟨some (.jnum 1), .jstr "p", .jstr "q", "bid", 1, some (.jnum 2)⟩ : Row).update_id
        = some (.jnum 2)
    ∧ (⟨some (.jnum 1), .jstr "p", .jstr "q", "bid", 1, some (.jnum 2)⟩ : Row).side
        = "bid" :=
  (C6_buffer_order.2.2 (some (.jnum 1)) (some (.jnum 2)) "bid"
      [(.jstr "p", .jstr "q")]).2.2
    ⟨some (.jnum 1), .jstr "p", .jstr "q", "bid", 1, some (.jnum 2)⟩
    (List.Mem.head _)

/-- Claim C9: the target file path of a flush is derived from the
wall-clock UTC date at the moment of the call; the stored partition
key `current_date` is never consulted: two states differing only in
`current_date` produce the same file effect and the same write, and
the rollover flush behaves identically. -/
theorem C9_flush_path_wall_clock (dateOf : Nat → String) (now : Nat) (ok : Bool)
    (st : CollectorState) (w : World) (c : String) :
    (st.buffer ≠ [] →
        (flush_buffer dateOf now true st w).writes
          = [(filePath st.symbol (dateOf now), st.buffer.length)])
    ∧ (flush_buffer dateOf now ok { st with current_date := c } w).w
        = (flush_buffer dateOf now ok st w).w
    ∧ (flush_buffer dateOf now ok { st with current_date := c } w).writes
        = (flush_buffer dateOf now ok st w).writes
    ∧ (rollover_file dateOf now ok st w).writes
        = (flush_buffer dateOf now ok st w).writes := by
  have hb2 : ({ st with current_date := c } : CollectorState).buffer = st.buffer := rfl
  by_cases hb : st.buffer = []
  · have hh := flush_buffer_empty dateOf now ok st w hb
    have hh2 := flush_buffer_empty dateOf now ok { st with current_date := c } w
      (hb2.trans hb)
    have hh3 := rollover_file_empty dateOf now ok st w hb
    exact ⟨fun hc => absurd hb hc, by rw [hh, hh2], by rw [hh, hh2], by rw [hh, hh3]⟩
  · have hb3 : ({ st with current_date := c } : CollectorState).buffer ≠ [] := by
      rw [hb2]; exact hb
    cases ok
    · have hh := flush_buffer_fail dateOf now st w hb
      have hh2 := flush_buffer_fail dateOf now { st with current_date := c } w hb3
      have hh3 := rollover_file_fail dateOf now st w hb
      exact ⟨fun _ => by rw [flush_buffer_ok dateOf now st w hb],
             by rw [hh, hh2], by rw [hh, hh2], by rw [hh, hh3]⟩
    · have hh := flush_buffer_ok dateOf now st w hb
      have hh2 := flush_buffer_ok dateOf now { st with current_date := c } w hb3
      have hh3 := rollover_file_ok dateOf now st w hb
      exact ⟨fun _ => by rw [hh], by rw [hh, hh2], by rw [hh, hh2], by rw [hh, hh3]⟩

/-- Witness for C9 at a concrete non-empty buffer: the flush writes to
the file named by the wall-clock date. -/
theorem C9_flush_path_wall_clock_witness :
    (flush_buffer exDateOf 100 true exStSame exW).writes
      = [("data/BTCUSDT/2024-01-02.csv.gz", 1)] :=
  (C9_flush_path_wall_clock exDateOf 100 true exStSame exW "x").1 (by decide)


/-- Counterexample to claim C1 as stated: with one buffered row, held
key 2024-01-01 and wall-clock date 2024-01-02, the rollover is due,
yet the buffered row is flushed to the file of the NEW key
2024-01-02 (whose file therefore begins with a pre-rollover row), and
no file for the old key 2024-01-01 is ever written. -/
theorem C1_counterexample :
    exDateOf 1000 ≠ exSt.current_date
    ∧ fsFind (rollover_file exDateOf 1000 true exSt exW).w.fs
        (filePath "BTCUSDT" "2024-01-02") = some ⟨1, [exRow]⟩
    ∧ fsFind (rollover_file exDateOf 1000 true exSt exW).w.fs
        (filePath "BTCUSDT" "2024-01-01") = none
    ∧ (rollover_file exDateOf 1000 true exSt exW).st.current_date
        = "2024-01-02" :=
  ⟨by decide, rfl, rfl, rfl⟩

/-- Claim C1 as amended: a rollover flushes the buffered rows to the
file of the NEW partition key (the wall-clock date at flush time);
the old key's file is not touched by the rollover, and the new key's
file, when first created by the rollover, begins with the rows
buffered before the rollover. -/
theorem C1_rollover_target (dateOf : Nat → String) (now : Nat)
    (d : RawData) (st : CollectorState) (w : World)
    (hdec : (buffer_snapshot d).2 = false)
    (hdate : dateOf now ≠ st.current_date)
    (hbuf : st.buffer ++ (buffer_snapshot d).1 ≠ [])
    (hnew : fsFind w.fs (filePath st.symbol (dateOf now)) = none) :
    fsFind (process_update dateOf now true d st w).w.fs
        (filePath st.symbol (dateOf now))
      = some ⟨1, st.buffer ++ (buffer_snapshot d).1⟩
    ∧ fsFind (process_update dateOf now true d st w).w.fs
        (filePath st.symbol st.current_date)
      = fsFind w.fs (filePath st.symbol st.current_date)
    ∧ (process_update dateOf now true d st w).st.current_date = dateOf now := by
  rw [process_update_rollover dateOf now d st w hdec hdate hbuf]
  refine ⟨fsFind_fsAppend_new w.fs _ _ hnew, ?_, rfl⟩
  have hne : filePath st.symbol st.current_date ≠ filePath st.symbol (dateOf now) :=
    fun hh => hdate (filePath_inj st.symbol _ _ hh).symm
  exact fsFind_fsAppend_ne w.fs _ _ _ hne


/-- Witness for the amended C1 at a concrete rollover: the new key's
file is created holding the pre-rollover row, the old key's file
stays absent, and the new key is adopted. -/
theorem C1_rollover_target_witness :
    fsFind (process_update exDateOf 1000 true exUpd exSt exW).w.fs
        (filePath exSt.symbol (exDateOf 1000))
      = some ⟨1, exSt.buffer ++ (buffer_snapshot exUpd).1⟩
    ∧ fsFind (process_update exDateOf 1000 true exUpd exSt exW).w.fs
        (filePath exSt.symbol exSt.current_date)
      = fsFind exW.fs (filePath exSt.symbol exSt.current_date)
    ∧ (process_update exDateOf 1000 true exUpd exSt exW).st.current_date
      = exDateOf 1000 :=
  C1_rollover_target exDateOf 1000 exUpd exSt exW rfl (by decide) (by decide) rfl

theorem inner_iteration_good_err (dateOf : Nat → String) (now : Nat) (ok : Bool)
    (d : RawData) (st : CollectorState) (w : World)
    (h : (process_update dateOf now ok d st w).err = true) :
    inner_iteration dateOf now ok (.good d) st w =
      ⟨(process_update dateOf now ok d st w).st,
       (process_update dateOf now ok d st w).w,
       (process_update dateOf now ok d st w).writes, .breakOut⟩ := by
  simp only [inner_iteration, h, if_true]

theorem outer_session_single_err (dateOf : Nat → String) (now : Nat) (ok : Bool)
    (d : RawData) (st : CollectorState) (w : World)
    (h : (process_update dateOf now ok d st w).err = true) :
    (outer_iteration dateOf (.session [(now, ok, .good d)]) st w).2.2
      = .reconnectNow := by
  simp only [outer_iteration, run_inner, inner_iteration_good_err dateOf now ok d st w h]

theorem process_update_err_effects (dateOf : Nat → String) (now : Nat) (ok : Bool)
    (d : RawData) (st : CollectorState) (w : World)
    (herr : (process_update dateOf now ok d st w).err = true) :
    (process_update dateOf now ok d st w).st.buffer
        = st.buffer ++ (buffer_snapshot d).1
    ∧ (process_update dateOf now ok d st w).st.last_flush = st.last_flush
    ∧ (process_update dateOf now ok d st w).st.current_date = st.current_date
    ∧ (process_update dateOf now ok d st w).writes = []
    ∧ (process_update dateOf now ok d st w).w.fs = w.fs := by
  by_cases hing : (buffer_snapshot d).2 = true
  · rw [process_update_ing_err dateOf now ok d st w hing]
    exact ⟨rfl, rfl, rfl, rfl, rfl⟩
  · have hing2 : (buffer_snapshot d).2 = false := by
      cases hb : (buffer_snapshot d).2
      · rfl
      · exact absurd hb hing
    by_cases hdate : dateOf now ≠ st.current_date
    · by_cases hbuf : st.buffer ++ (buffer_snapshot d).1 = []
      · rw [process_update_rollover_empty dateOf now ok d st w hing2 hdate hbuf] at herr
        simp at herr
      · cases ok
        · rw [process_update_rollover_fail dateOf now d st w hing2 hdate hbuf]
          exact ⟨rfl, rfl, rfl, rfl, rfl⟩
        · rw [process_update_rollover dateOf now d st w hing2 hdate hbuf] at herr
          simp at herr
    · have hd2 : dateOf now = st.current_date := not_not.mp hdate
      by_cases ht : now - st.last_flush > 60
      · by_cases hbuf : st.buffer ++ (buffer_snapshot d).1 = []
        · rw [process_update_timed_empty dateOf now ok d st w hing2 hd2 ht hbuf] at herr
          simp at herr
        · cases ok
          · rw [process_update_timed_fail dateOf now d st w hing2 hd2 ht hbuf]
            exact ⟨rfl, rfl, rfl, rfl, rfl⟩
          · rw [process_update_timed dateOf now d st w hing2 hd2 ht hbuf] at herr
            simp at herr
      · rw [process_update_idle dateOf now ok d st w hing2 hd2 ht] at herr
        simp at herr

/-- Counterexample to claim C2 as stated: at a state whose buffer is
non-empty and whose flush timer has expired, a flush whose write
raises an I/O error IS handled inside the ingestion loop — the
iteration breaks out of the receive loop (it does not propagate), and
the outer loop immediately attempts a reconnect instead of
terminating the process. -/
theorem C2_counterexample :
    (100 - exStSame.last_flush > 60 ∧ exStSame.buffer ≠ [])
    ∧ (process_update exDateOf 100 false exUpd exStSame exW).err = true
    ∧ (inner_iteration exDateOf 100 false (.good exUpd) exStSame exW).outcome
        = .breakOut
    ∧ (inner_iteration exDateOf 100 false (.good exUpd) exStSame exW).outcome
        ≠ .propagate
    ∧ (outer_iteration exDateOf
        (.session [(100, false, .good exUpd)]) exStSame exW).2.2
        = .reconnectNow :=
  ⟨⟨by decide, by decide⟩, rfl, rfl, by decide, rfl⟩

/-- Claim C2 as amended: an I/O error raised during a flush is caught
by the ingestion loop's generic exception handler: the iteration
breaks out (abandoning the connection) instead of propagating, the
buffered rows and `last_flush` are left intact, nothing is written,
and the outer loop immediately attempts a reconnect; the error is not
fatal to the process. -/
theorem C2_flush_error_reconnects (dateOf : Nat → String) (now : Nat)
    (d : RawData) (st : CollectorState) (w : World)
    (herr : (process_update dateOf now false d st w).err = true) :
    (inner_iteration dateOf now false (.good d) st w).outcome = .breakOut
    ∧ (inner_iteration dateOf now false (.good d) st w).st.buffer
        = st.buffer ++ (buffer_snapshot d).1
    ∧ (inner_iteration dateOf now false (.good d) st w).st.last_flush
        = st.last_flush
    ∧ (process_update dateOf now false d st w).writes = []
    ∧ (process_update dateOf now false d st w).w.fs = w.fs
    ∧ (outer_iteration dateOf (.session [(now, false, .good d)]) st w).2.2
        = .reconnectNow := by
  have he := process_update_err_effects dateOf now false d st w herr
  rw [inner_iteration_good_err dateOf now false d st w herr]
  exact ⟨rfl, he.1, he.2.1, he.2.2.2.1, he.2.2.2.2,
    outer_session_single_err dateOf now false d st w herr⟩

/-- Witness for the amended C2 at the concrete failing flush. -/
theorem C2_flush_error_reconnects_witness :
    (inner_iteration exDateOf 100 false (.good exUpd) exStSame exW).outcome
        = .breakOut
    ∧ (inner_iteration exDateOf 100 false (.good exUpd) exStSame exW).st.buffer
        = exStSame.buffer ++ (buffer_snapshot exUpd).1
    ∧ (inner_iteration exDateOf 100 false (.good exUpd) exStSame exW).st.last_flush
        = exStSame.last_flush
    ∧ (process_update exDateOf 100 false exUpd exStSame exW).writes = []
    ∧ (process_update exDateOf 100 false exUpd exStSame exW).w.fs = exW.fs
    ∧ (outer_iteration exDateOf
        (.session [(100, false, .good exUpd)]) exStSame exW).2.2
        = .reconnectNow :=
  C2_flush_error_reconnects exDateOf 100 exUpd exStSame exW rfl

/-- Counterexample to claim C3 as stated: after a malformed payload
the connection is abandoned and the loop reconnects immediately — the
reaction is not the sleep-then-reconnect path, i.e. the claimed
5-unit backoff is not waited (that backoff only follows a failed
connection attempt). -/
theorem C3_counterexample :
    (outer_iteration exDateOf
        (.session [(100, true, .badPayload)]) exStSame exW).2.2
        = .reconnectNow
    ∧ (outer_iteration exDateOf
        (.session [(100, true, .badPayload)]) exStSame exW).2.2
        ≠ .sleepThenReconnect
    ∧ (outer_iteration exDateOf .connectFail exStSame exW).2.2
        = .sleepThenReconnect :=
  ⟨rfl, by decide, rfl⟩

/-- Claim C3 as amended: a decode failure is handled like a connection
fault arising inside the receive loop: the iteration breaks out with
state untouched, the connection is abandoned and a reconnect is
attempted immediately, with no backoff wait and without escalating to
a process failure; the 5-unit backoff applies only to failures of the
connection attempt itself. -/
theorem C3_decode_fault_reconnects (dateOf : Nat → String) (now : Nat) (ok : Bool)
    (st : CollectorState) (w : World) :
    inner_iteration dateOf now ok .badPayload st w = ⟨st, w, [], .breakOut⟩
    ∧ outer_iteration dateOf (.session [(now, ok, .badPayload)]) st w
        = (st, w, .reconnectNow)
    ∧ inner_iteration dateOf now ok .connLost st w = ⟨st, w, [], .breakOut⟩
    ∧ outer_iteration dateOf .connectFail st w = (st, w, .sleepThenReconnect) :=
  ⟨rfl, rfl, rfl, rfl⟩


theorem process_update_writes_le_one (dateOf : Nat → String) (now : Nat)
    (ok : Bool) (d : RawData) (st : CollectorState) (w : World) :
    (process_update dateOf now ok d st w).writes.length ≤ 1 := by
  by_cases hing : (buffer_snapshot d).2 = true
  · rw [process_update_ing_err dateOf now ok d st w hing]
    simp
  · have hing2 : (buffer_snapshot d).2 = false := by
      cases hb : (buffer_snapshot d).2
      · rfl
      · exact absurd hb hing
    by_cases hdate : dateOf now ≠ st.current_date
    · by_cases hbuf : st.buffer ++ (buffer_snapshot d).1 = []
      · rw [process_update_rollover_empty dateOf now ok d st w hing2 hdate hbuf]
        simp
      · cases ok
        · rw [process_update_rollover_fail dateOf now d st w hing2 hdate hbuf]
          simp
        · rw [process_update_rollover dateOf now d st w hing2 hdate hbuf]
          simp
    · have hd2 : dateOf now = st.current_date := not_not.mp hdate
      by_cases ht : now - st.last_flush > 60
      · by_cases hbuf : st.buffer ++ (buffer_snapshot d).1 = []
        · rw [process_update_timed_empty dateOf now ok d st w hing2 hd2 ht hbuf]
          simp
        · cases ok
          · rw [process_update_timed_fail dateOf now d st w hing2 hd2 ht hbuf]
            simp
          · rw [process_update_timed dateOf now d st w hing2 hd2 ht hbuf]
            simp
      · rw [process_update_idle dateOf now ok d st w hing2 hd2 ht]
        simp

/-- Claim C8: per processed update the rollover condition is checked
before the 60-unit timer and at most one write is performed even when
both triggers hold: a rollover flush produces the single write of the
update and resets `last_flush` to the current instant (which disarms
the timer for this update); the time-based flush writes only when the
elapsed time since `last_flush` exceeds 60 units and then resets
`last_flush`; with neither trigger nothing is written and
`last_flush` is unchanged. -/
theorem C8_flush_triggers (dateOf : Nat → String) (now : Nat) (ok : Bool)
    (d : RawData) (st : CollectorState) (w : World) :
    (process_update dateOf now ok d st w).writes.length ≤ 1
    ∧ ((buffer_snapshot d).2 = false → dateOf now ≠ st.current_date →
        st.buffer ++ (buffer_snapshot d).1 ≠ [] →
        (process_update dateOf now true d st w).writes
          = [(filePath st.symbol (dateOf now),
              (st.buffer ++ (buffer_snapshot d).1).length)]
        ∧ (process_update dateOf now true d st w).st.last_flush = now
        ∧ (process_update dateOf now true d st w).st.current_date = dateOf now)
    ∧ ((buffer_snapshot d).2 = false → dateOf now = st.current_date →
        now - st.last_flush > 60 →
        st.buffer ++ (buffer_snapshot d).1 ≠ [] →
        (process_update dateOf now true d st w).writes
          = [(filePath st.symbol (dateOf now),
              (st.buffer ++ (buffer_snapshot d).1).length)]
        ∧ (process_update dateOf now true d st w).st.last_flush = now)
    ∧ ((buffer_snapshot d).2 = false → dateOf now = st.current_date →
        ¬ (now - st.last_flush > 60) →
        (process_update dateOf now ok d st w).writes = []
        ∧ (process_update dateOf now ok d st w).st.last_flush = st.last_flush) := by
  refine ⟨process_update_writes_le_one dateOf now ok d st w, ?_, ?_, ?_⟩
  · intro h1 h2 h3
    rw [process_update_rollover dateOf now d st w h1 h2 h3]
    exact ⟨rfl, rfl, rfl⟩
  · intro h1 h2 h3 h4
    rw [process_update_timed dateOf now d st w h1 h2 h3 h4]
    exact ⟨rfl, rfl⟩
  · intro h1 h2 h3
    rw [process_update_idle dateOf now ok d st w h1 h2 h3]
    exact ⟨rfl, rfl⟩

/-- Witness for C8 at a concrete rollover that also has an expired
timer: exactly the rollover write happens and the timer is re-armed. -/
theorem C8_flush_triggers_witness :
    (process_update exDateOf 1000 true exUpd exSt exW).writes
        = [(filePath exSt.symbol (exDateOf 1000),
            (exSt.buffer ++ (buffer_snapshot exUpd).1).length)]
    ∧ (process_update exDateOf 1000 true exUpd exSt exW).st.last_flush = 1000
    ∧ (process_update exDateOf 1000 true exUpd exSt exW).st.current_date
        = exDateOf 1000 :=
  (C8_flush_triggers exDateOf 1000 true exUpd exSt exW).2.1 rfl (by decide) (by decide)


theorem flushBatches_cons (dateOf : Nat → String) (now : Nat) (rows : List Row)
    (rest : List (Nat × List Row)) (st : CollectorState) (w : World)
    (h : rows ≠ []) :
    flushBatches dateOf ((now, rows) :: rest) st w
      = flushBatches dateOf rest
          { st with buffer := [], last_flush := now }
          ⟨fsAppend w.fs (filePath st.symbol (dateOf now)) rows,
           addDir w.dirs (dirPath st.symbol)⟩ := by
  have hb : ({ st with buffer := rows } : CollectorState).buffer ≠ [] := h
  simp only [flushBatches, List.foldl_cons,
    flush_buffer_ok dateOf now { st with buffer := rows } w hb]

theorem flushBatches_fs (dateOf : Nat → String) (D : String)
    (batches : List (Nat × List Row)) :
    ∀ (st : CollectorState) (w : World),
      (∀ b ∈ batches, b.2 ≠ []) → (∀ b ∈ batches, dateOf b.1 = D) →
      (flushBatches dateOf batches st w).2.fs
        = fsAppendAll w.fs (filePath st.symbol D) (batches.map Prod.snd) := by
  induction batches with
  | nil => intro st w _ _; rfl
  | cons b rest ih =>
      intro st w hne hd
      obtain ⟨now, rows⟩ := b
      rw [flushBatches_cons dateOf now rows rest st w
        (hne (now, rows) (List.mem_cons_self _ _))]
      rw [ih _ _ (fun b hb => hne b (List.mem_cons_of_mem _ hb))
        (fun b hb => hd b (List.mem_cons_of_mem _ hb))]
      rw [show dateOf now = D from hd (now, rows) (List.mem_cons_self _ _)]
      rfl

theorem fsAppendAll_some (path : String) (bs : List (List Row)) :
    ∀ (fs : List (String × File)) (f : File), fsFind fs path = some f →
      fsFind (fsAppendAll fs path bs) path
          = some ⟨f.headers, f.rows ++ bs.flatten⟩
      ∧ countPath (fsAppendAll fs path bs) path = countPath fs path := by
  induction bs with
  | nil => intro fs f h; simp [fsAppendAll, h]
  | cons rows rest ih =>
      intro fs f h
      have h1 := fsFind_fsAppend_same fs path rows f h
      have h2 := ih (fsAppend fs path rows) ⟨f.headers, f.rows ++ rows⟩ h1
      constructor
      · rw [fsAppendAll, h2.1]
        simp [List.append_assoc]
      · rw [fsAppendAll, h2.2, countPath_fsAppend_some fs path rows f h]

theorem fsAppendAll_new (path : String) (rows : List Row) (bs : List (List Row))
    (fs : List (String × File)) (h : fsFind fs path = none) :
    fsFind (fsAppendAll fs path (rows :: bs)) path
        = some ⟨1, rows ++ bs.flatten⟩
    ∧ countPath (fsAppendAll fs path (rows :: bs)) path = 1 := by
  have h1 := fsFind_fsAppend_new fs path rows h
  have h2 := fsAppendAll_some path bs (fsAppend fs path rows) ⟨1, rows⟩ h1
  constructor
  · rw [fsAppendAll, h2.1]
  · rw [fsAppendAll, h2.2, countPath_fsAppend_none fs path rows h,
      countPath_eq_zero fs path h]

/-- Claim C7: starting from a world without a file for the partition,
N ≥ 1 sequential non-empty flushes targeting that partition leave
exactly one file for it, holding all flushed rows in call order under
exactly one header line (and N batches of R rows each give N * R
rows); moreover a flush onto an already existing file appends its
rows without writing another header. -/
theorem C7_flush_accumulation (dateOf : Nat → String) (D : String)
    (batches : List (Nat × List Row)) (st : CollectorState) (w : World)
    (hne : ∀ b ∈ batches, b.2 ≠ [])
    (hd : ∀ b ∈ batches, dateOf b.1 = D)
    (hnew : fsFind w.fs (filePath st.symbol D) = none)
    (hlen : batches ≠ []) :
    fsFind (flushBatches dateOf batches st w).2.fs (filePath st.symbol D)
        = some ⟨1, (batches.map Prod.snd).flatten⟩
    ∧ countPath (flushBatches dateOf batches st w).2.fs (filePath st.symbol D) = 1
    ∧ (∀ R, (∀ b ∈ batches, b.2.length = R) →
        (batches.map Prod.snd).flatten.length = batches.length * R)
    ∧ (∀ (now : Nat) (rows : List Row) (st1 : CollectorState) (w1 : World)
        (f : File), rows ≠ [] →
        fsFind w1.fs (filePath st1.symbol (dateOf now)) = some f →
        fsFind (flush_buffer dateOf now true { st1 with buffer := rows } w1).w.fs
            (filePath st1.symbol (dateOf now))
          = some ⟨f.headers, f.rows ++ rows⟩) := by
  rw [flushBatches_fs dateOf D batches st w hne hd]
  obtain ⟨b0, rest, rfl⟩ : ∃ b0 rest, batches = b0 :: rest := by
    cases batches with
    | nil => exact absurd rfl hlen
    | cons b0 rest => exact ⟨b0, rest, rfl⟩
  obtain ⟨now0, rows0⟩ := b0
  have hmain := fsAppendAll_new (filePath st.symbol D) rows0 (rest.map Prod.snd)
    w.fs hnew
  refine ⟨?_, hmain.2, ?_, ?_⟩
  · rw [List.map_cons]
    rw [hmain.1]
    simp
  · intro R hR
    have hlens : ((((now0, rows0) :: rest).map Prod.snd).map List.length)
        = List.replicate (((now0, rows0) :: rest)).length R := by
      have hmem : ∀ x ∈ (((now0, rows0) :: rest).map Prod.snd).map List.length,
          x = R := by
        intro x hx
        obtain ⟨rs, hrs, hxeq⟩ := List.mem_map.mp hx
        obtain ⟨b, hb, hrseq⟩ := List.mem_map.mp hrs
        subst hxeq; subst hrseq
        exact hR b hb
      have hlen2 := List.eq_replicate_of_mem hmem
      simpa using hlen2
    rw [List.length_flatten, hlens]
    simp [List.sum_replicate, Nat.mul_comm]
  · intro now rows st1 w1 f hrows hf
    have hb : ({ st1 with buffer := rows } : CollectorState).buffer ≠ [] := hrows
    rw [flush_buffer_ok dateOf now { st1 with buffer := rows } w1 hb]
    exact fsFind_fsAppend_same w1.fs _ rows f hf

/-- Witness for C7: two one-row flushes to the same partition leave a
single file with one header and both rows. -/
theorem C7_flush_accumulation_witness :
    fsFind (flushBatches exDateOf [(10, [exRow]), (20, [exRow])] exStSame exW).2.fs
        (filePath exStSame.symbol "2024-01-02")
      = some ⟨1, ([[exRow], [exRow]] : List (List Row)).flatten⟩
    ∧ countPath
        (flushBatches exDateOf [(10, [exRow]), (20, [exRow])] exStSame exW).2.fs
        (filePath exStSame.symbol "2024-01-02") = 1 :=
  ⟨(C7_flush_accumulation exDateOf "2024-01-02" [(10, [exRow]), (20, [exRow])]
      exStSame exW (by decide) (by decide) rfl (by decide)).1,
   (C7_flush_accumulation exDateOf "2024-01-02" [(10, [exRow]), (20, [exRow])]
      exStSame exW (by decide) (by decide) rfl (by decide)).2.1⟩


theorem processSide_err_eq (ts uid : Option JVal) (side : String)
    (es : List JVal) (i : Nat) :
    (processSide ts uid side es i).2 = !es.all entryOk := by
  induction es generalizing i with
  | nil => rfl
  | cons e es ih =>
      cases he : unpack2 e with
      | none => simp [processSide, he, entryOk, List.all_cons]
      | some pq =>
          obtain ⟨p, q⟩ := pq
          simp [processSide, he, entryOk, List.all_cons, ih]

theorem processSide_append_bad (ts uid : Option JVal) (side : String)
    (good : List (JVal × JVal)) (bad : JVal) (tail : List JVal)
    (hbad : unpack2 bad = none) :
    ∀ i, processSide ts uid side (good.map encodePair ++ bad :: tail) i
      = (rowsFrom ts uid side good i, true) := by
  induction good with
  | nil => intro i; simp [processSide, hbad, rowsFrom]
  | cons pq rest ih =>
      intro i
      obtain ⟨p, q⟩ := pq
      simp [processSide, unpack2_encodePair, ih, rowsFrom]

/-- Counterexample to claim C10 as stated: an update whose second bid
entry is not a two-element pair makes ingest raise, but the row built
from the first, well-formed entry has already been appended — the
error is not raised "instead of appending rows". -/
theorem C10_counterexample :
    (unpack2 (.jnum 5)).isNone = true
    ∧ (buffer_snapshot c10Data).2 = true
    ∧ (buffer_snapshot c10Data).1 ≠ []
    ∧ (buffer_snapshot c10Data).1
        = [⟨some (.jnum 1), .jstr "1.0", .jstr "2.0", "bid", 1,
            some (.jnum 2)⟩] :=
  ⟨rfl, rfl, by decide, rfl⟩

/-- Claim C10 as amended: ingest raises exactly when a present `b` or
`a` value fails to slice (e.g. null) or one of its first ten entries
fails to unpack as a two-element sequence; a null `b` raises before
any row is appended; but when the malformed entry follows well-formed
ones, the rows of the entries processed before it have already been
appended and remain in the buffer. -/
theorem C10_ingest_raises_after_append (d : RawData) :
    (buffer_snapshot d).2
        = (!sideOk (d.b.getD (.jarr [])) || !sideOk (d.a.getD (.jarr [])))
    ∧ (d.b = some .jnull → buffer_snapshot d = ([], true))
    ∧ (∀ (ts uid : Option JVal) (good : List (JVal × JVal)) (bad : JVal)
        (tail : List JVal), unpack2 bad = none → good.length < 10 →
        buffer_snapshot
          ⟨ts, uid, some (.jarr (good.map encodePair ++ bad :: tail)),
           some (.jarr [])⟩
          = (rowsFrom ts uid "bid" good 1, true)) := by
  refine ⟨?_, ?_, ?_⟩
  · unfold buffer_snapshot sideOk
    cases hb : slice10 (d.b.getD (.jarr [])) with
    | none => simp only [hb]; simp
    | some bs =>
        cases ha : slice10 (d.a.getD (.jarr [])) with
        | none =>
            simp only [hb, ha, processSide_err_eq]
            cases hbe : bs.all entryOk <;> simp
        | some as2 =>
            simp only [hb, ha, processSide_err_eq]
            cases hbe : bs.all entryOk <;> cases hae : as2.all entryOk <;> simp
  · intro hb
    simp [buffer_snapshot, hb, slice10]
  · intro ts uid good bad tail hbad hlt
    have htake : (good.map encodePair ++ bad :: tail).take 10
        = good.map encodePair ++ bad :: tail.take (9 - good.length) := by
      rw [List.take_append_eq_append_take]
      have hlen : (good.map encodePair).length = good.length := by
        simp
      rw [List.take_of_length_le (by omega : (good.map encodePair).length ≤ 10)]
      have h10 : 10 - (good.map encodePair).length
          = (9 - good.length) + 1 := by
        rw [hlen]; omega
      rw [h10, List.take_succ_cons]
    have hps := processSide_append_bad ts uid "bid" good bad
      (tail.take (9 - good.length)) hbad 1
    simp only [buffer_snapshot, Option.getD, slice10, htake, hps]
    simp

/-- Witness for the amended C10: a good bid entry followed by a bad
one leaves the good entry's row appended and raises. -/
theorem C10_ingest_raises_after_append_witness :
    buffer_snapshot
        ⟨none, none,
         some (.jarr ([((JVal.jstr "1.0"), (JVal.jstr "2.0"))].map encodePair
           ++ (JVal.jnum 5) :: ([] : List JVal))),
         some (.jarr [])⟩
      = (rowsFrom none none "bid" [(.jstr "1.0", .jstr "2.0")] 1, true) :=
  (C10_ingest_raises_after_append c10Data).2.2 none none
    [(.jstr "1.0", .jstr "2.0")] (.jnum 5) [] rfl (by decide)


end BinanceLogger
